import Mathlib

/-!
Verification of the AI command-to-tool orchestration layer of the
Phase-3 todo backend.  The definitions below are a shallow embedding of
the Python source:

* `src/mcp/tools/auth_validation.py` and `src/mcp/tools/task_operations.py`
  (authorization gate and tool executor over the task store),
* `src/ai/confirmation_handler.py` (pending-confirmation state machine),
* `src/ai/agent_service.py` (command orchestrator: input validation,
  message assembly, retry policy, per-tool-call processing, response
  moderation, audit writes).

The database is modelled as an in-memory list of rows; each session-scoped
read or write is total (storage faults are out of scope of the claims
proved here).  Timestamps are natural numbers (seconds); `datetime.utcnow()`
becomes an explicit `now` argument.  Python dictionaries keyed by strings
become association lists, and JSON values the small inductive `PVal`.
-/

namespace TodoSpec

/-- Python `str.strip()`: drop leading and trailing whitespace.  (Defined on
the character list so that proofs and witnesses can evaluate it.) -/
def pyStrip (s : String) : String :=
  ⟨((s.data.dropWhile Char.isWhitespace).reverse.dropWhile Char.isWhitespace).reverse⟩

/-- ASCII lower-casing of one character (the strings compared by the source
are ASCII). -/
def asciiLower (c : Char) : Char :=
  if 65 ≤ c.toNat ∧ c.toNat ≤ 90 then Char.ofNat (c.toNat + 32) else c

/-- ASCII upper-casing of one character. -/
def asciiUpper (c : Char) : Char :=
  if 97 ≤ c.toNat ∧ c.toNat ≤ 122 then Char.ofNat (c.toNat - 32) else c

/-- Python `str.lower()`. -/
def pyLower (s : String) : String := ⟨s.data.map asciiLower⟩

/-- Python `str.upper()`. -/
def pyUpper (s : String) : String := ⟨s.data.map asciiUpper⟩

/-- JSON-ish parameter values, the payload of Python dicts that cross the
tool-call boundary. -/
inductive PVal where
  | str (s : String)
  | num (n : Int)
  | bool (b : Bool)
  | null
deriving DecidableEq, Repr

/-- A Python `Dict[str, Any]` of tool parameters or results, in insertion
order. -/
abbrev Params := List (String × PVal)

/-- Dict assignment `d[k] = v`: replace the value when the key is present,
otherwise append the new binding at the end (Python insertion order). -/
def paramSet (ps : Params) (k : String) (v : PVal) : Params :=
  if ps.any (fun p => p.1 == k) then
    ps.map (fun p => if p.1 == k then (p.1, v) else p)
  else
    ps ++ [(k, v)]

/-- The exception kinds of `src/exceptions/ai_exceptions.py` that reach the
orchestrator, plus `attributeError` for the builtin `AttributeError` raised
by a failed `getattr` on the `MCPToolName` enum. -/
inductive PyExc where
  | aiProcessing (msg : String)
  | toolExecution (msg : String)
  | contextRetrieval (msg : String)
  | userPermission (msg : String)
  | invalidToolParams (msg : String)
  | auditLogging (msg : String)
  | confirmationExc (msg : String)
  | attributeError (msg : String)
deriving DecidableEq, Repr

/-- Python `str(e)`: `AIAgentException.__str__` renders the error code in
brackets before the message; builtin exceptions render the message alone. -/
def PyExc.toStr : PyExc → String
  | .aiProcessing m => "[AI_PROCESSING_ERROR] " ++ m
  | .toolExecution m => "[TOOL_EXECUTION_ERROR] " ++ m
  | .contextRetrieval m => "[CONTEXT_RETRIEVAL_ERROR] " ++ m
  | .userPermission m => "[USER_PERMISSION_ERROR] " ++ m
  | .invalidToolParams m => "[INVALID_TOOL_PARAMETERS] " ++ m
  | .auditLogging m => "[AUDIT_LOGGING_ERROR] " ++ m
  | .confirmationExc m => "[CONFIRMATION_ERROR] " ++ m
  | .attributeError m => m

/-! ## Task store and tool executor (`task_operations.py`, `auth_validation.py`) -/

/-- A row of the `tasks` table (`src/models/task.py`). -/
structure Task where
  id : Nat
  user_id : String
  title : String
  description : Option String
  completed : Bool
  priority : String
  created_at : Nat
  updated_at : Nat
deriving DecidableEq, Repr

/-- Embeds `auth_validation.validate_user_id`: the user id is a non-empty,
non-whitespace string. -/
def validate_user_id (user_id : String) : Bool :=
  !user_id.data.isEmpty && (pyStrip user_id).length > 0

/-- Embeds `auth_validation.verify_user_owns_task`: a row matching BOTH the task id
and the owner identity exists. -/
def verify_user_owns_task (db : List Task) (user_id : String) (task_id : Nat) : Bool :=
  db.any (fun t => t.id == task_id && t.user_id == user_id)

/-- The `ErrorResponse` shape returned by the MCP tool functions. -/
structure ErrResp where
  error_code : String
  message : String
deriving DecidableEq, Repr

/-- Normalized result of one MCP tool function, one variant per success
shape used in `task_operations.py`. -/
inductive TaskOpResult where
  | taskOk (task : Task) (message : String)
  | deleteOk (task_id : Nat) (message : String)
  | listOk (tasks : List Task) (message : String)
  | err (e : ErrResp)
deriving DecidableEq, Repr

/-- Embeds `task_operations.add_task`.  The store assigns `newId` to the created
row; `now` is the creation timestamp. -/
def add_task (db : List Task) (user_id title : String) (description : Option String)
    (priority : String) (newId now : Nat) : TaskOpResult × List Task :=
  if !(validate_user_id user_id) then
    (.err ⟨"INVALID_USER_ID", "Invalid user ID format"⟩, db)
  else if title.data.isEmpty || (pyStrip title).length == 0 || title.length > 200 then
    (.err ⟨"INVALID_TITLE", "Title is required and must be between 1 and 200 characters"⟩, db)
  else
    let new_task : Task :=
      ⟨newId, user_id, pyStrip title, description, false, priority, now, now⟩
    (.taskOk new_task "Task created successfully", db ++ [new_task])

/-- Embeds `task_operations.list_tasks`: rows of the caller, optionally filtered by
completion status (a falsy or unrecognised filter selects everything). -/
def list_tasks (db : List Task) (user_id : String) (status : Option String) : TaskOpResult :=
  if !(validate_user_id user_id) then
    .err ⟨"INVALID_USER_ID", "Invalid user ID format"⟩
  else
    let base := db.filter (fun t => t.user_id == user_id)
    let tasks :=
      match status with
      | none => base
      | some st =>
        if st.data.isEmpty || pyLower st == "all" then base
        else if pyLower st == "pending" then base.filter (fun t => t.completed == false)
        else if pyLower st == "completed" then base.filter (fun t => t.completed == true)
        else base
    .listOk tasks ("Retrieved " ++ toString tasks.length ++ " tasks")

/-- Tail of `task_operations.update_task` after the title check: apply the
provided field updates, stamp `updated_at`, write the row back by id. -/
def applyTaskUpdate (db : List Task) (task_id : Nat) (task : Task)
    (description priority : Option String) (completed : Option Bool) (now : Nat) :
    TaskOpResult × List Task :=
  let task := match description with
    | some d => { task with description := some d }
    | none => task
  let task := match priority with
    | some p => { task with priority := p }
    | none => task
  let task := match completed with
    | some c => { task with completed := c }
    | none => task
  let task := { task with updated_at := now }
  (.taskOk task "Task updated successfully",
   db.map (fun t => if t.id == task_id then task else t))

/-- Embeds `task_operations.update_task`: identity format check, ownership check
(by id AND owner), row fetch by id, then field updates with the title
length re-validated. -/
def update_task (db : List Task) (user_id : String) (task_id : Nat)
    (title description priority : Option String) (completed : Option Bool) (now : Nat) :
    TaskOpResult × List Task :=
  if !(validate_user_id user_id) then
    (.err ⟨"INVALID_USER_ID", "Invalid user ID format"⟩, db)
  else if !(verify_user_owns_task db user_id task_id) then
    (.err ⟨"TASK_NOT_FOUND_OR_UNAUTHORIZED",
           "Task not found or user not authorized to update it"⟩, db)
  else
    match db.find? (fun t => t.id == task_id) with
    | none => (.err ⟨"TASK_NOT_FOUND", "Task not found"⟩, db)
    | some task =>
      match title with
      | some t =>
        if (pyStrip t).length == 0 || t.length > 200 then
          (.err ⟨"INVALID_TITLE", "Title must be between 1 and 200 characters"⟩, db)
        else
          applyTaskUpdate db task_id { task with title := pyStrip t }
            description priority completed now
      | none =>
        applyTaskUpdate db task_id task description priority completed now

/-- Embeds `task_operations.complete_task`: identity check, then delegates to
`update_task` with only the completion flag. -/
def complete_task (db : List Task) (user_id : String) (task_id : Nat)
    (completed : Bool) (now : Nat) : TaskOpResult × List Task :=
  if !(validate_user_id user_id) then
    (.err ⟨"INVALID_USER_ID", "Invalid user ID format"⟩, db)
  else
    update_task db user_id task_id none none none (some completed) now

/-- Embeds `task_operations.delete_task`: identity format check, ownership check,
then hard delete of the row by id. -/
def delete_task (db : List Task) (user_id : String) (task_id : Nat) :
    TaskOpResult × List Task :=
  if !(validate_user_id user_id) then
    (.err ⟨"INVALID_USER_ID", "Invalid user ID format"⟩, db)
  else if !(verify_user_owns_task db user_id task_id) then
    (.err ⟨"TASK_NOT_FOUND_OR_UNAUTHORIZED",
           "Task not found or user not authorized to delete it"⟩, db)
  else
    match db.find? (fun t => t.id == task_id) with
    | none => (.err ⟨"TASK_NOT_FOUND", "Task not found"⟩, db)
    | some _ =>
      (.deleteOk task_id "Task deleted successfully",
       db.filter (fun t => !(t.id == task_id)))

/-! ## Audit log (`audit_logger.py`) -/

/-- One `ToolCallLog` row written by `AuditLogger.log_tool_call` (timestamps
and execution duration are not modelled; none of the claims touch them). -/
structure AuditEntry where
  user_id : String
  tool_name : String
  tool_params : Params
  result : Params
  status : String
deriving DecidableEq, Repr

/-! ## Confirmation handler (`confirmation_handler.py`) -/

/-- One record of `ConfirmationHandler.pending_confirmations`. -/
structure ConfirmationData where
  user_id : String
  tool_name : String
  tool_params : Params
  context : Option Params
  created_at : Nat
  expires_at : Nat
  status : String
  approved_at : Option Nat
  rejected_at : Option Nat
deriving DecidableEq, Repr

/-- The in-memory pending-confirmation dict, keyed by confirmation id. -/
abbrev ConfStore := List (String × ConfirmationData)

/-- Dict membership / item access on the pending store. -/
def storeLookup : ConfStore → String → Option ConfirmationData
  | [], _ => none
  | p :: rest, cid => if p.1 == cid then some p.2 else storeLookup rest cid

/-- In-place mutation of the dict value under an existing key (the handler
mutates `confirmation_data`, which aliases the stored record). -/
def storeSet : ConfStore → String → ConfirmationData → ConfStore
  | [], _, _ => []
  | p :: rest, cid, d =>
    if p.1 == cid then (cid, d) :: storeSet rest cid d else p :: storeSet rest cid d

/-- Embeds `del self.pending_confirmations[cid]`. -/
def storeErase : ConfStore → String → ConfStore
  | [], _ => []
  | p :: rest, cid =>
    if p.1 == cid then storeErase rest cid else p :: storeErase rest cid

/-- Embeds `ConfirmationHandler.create_confirmation_request`: stores a fresh
pending record with a 10-minute (600 s) TTL; the generated uuid is the
`cid` argument. -/
def create_confirmation_request (store : ConfStore) (cid user_id tool_name : String)
    (tool_params : Params) (context : Option Params) (now : Nat) : String × ConfStore :=
  (cid, store ++ [(cid, ⟨user_id, tool_name, tool_params, context,
                         now, now + 600, "pending", none, none⟩)])

/-- The distinct confirmation-state failures: `ConfirmationError` for
not-found / not-pending / expired, `UserPermissionError` for a requester
that is not the owner. -/
inductive ConfError where
  | notFound (cid : String)
  | notPending (cid : String)
  | permissionDenied
  | expired (cid : String)
deriving DecidableEq, Repr

/-- Embeds `ConfirmationHandler.validate_confirmation`, checks in source order:
presence, status pending, owner identity, expiry (an expired record is
deleted as a side effect of detection). -/
def validate_confirmation (store : ConfStore) (cid user_id : String) (now : Nat) :
    Except ConfError ConfirmationData × ConfStore :=
  match storeLookup store cid with
  | none => (.error (.notFound cid), store)
  | some d =>
    if d.status != "pending" then (.error (.notPending cid), store)
    else if d.user_id != user_id then (.error .permissionDenied, store)
    else if d.expires_at < now then (.error (.expired cid), storeErase store cid)
    else (.ok d, store)

/-- The executor callback handed to `approve_confirmation`: applied to
`(tool_name, tool_params)`, it returns a result dict or raises (the raised
exception rendered as a string). -/
abbrev Executor := String → Params → Except String Params

/-- Outcome of an approve / reject call on the confirmation handler. -/
inductive ConfirmOutcome where
  | approved (result : Option Params) (tool_name : String) (tool_params : Params)
  | rejected (tool_name : String) (tool_params : Params)
  | confErr (e : ConfError)
  | execRaise (msg : String)
deriving DecidableEq, Repr

/-- Embeds `ConfirmationHandler.approve_confirmation`: revalidate, mark the stored
record approved, run the executor.  On executor success write a success
audit entry and delete the record; on executor failure write an error audit
entry and re-raise — the `del` after the try block is NOT reached, so the
record stays in the store (with status already set to approved). -/
def approve_confirmation (store : ConfStore) (cid user_id : String) (now : Nat)
    (executor : Option Executor) : ConfirmOutcome × ConfStore × List AuditEntry :=
  match validate_confirmation store cid user_id now with
  | (.error e, store1) => (.confErr e, store1, [])
  | (.ok d, store1) =>
    let d1 := { d with status := "approved", approved_at := some now }
    let store2 := storeSet store1 cid d1
    match executor with
    | none =>
      (.approved none d.tool_name d.tool_params, storeErase store2 cid, [])
    | some f =>
      match f d.tool_name d.tool_params with
      | .ok r =>
        (.approved (some r) d.tool_name d.tool_params, storeErase store2 cid,
         [⟨user_id, d.tool_name, d.tool_params, r, "success"⟩])
      | .error m =>
        (.execRaise m, store2,
         [⟨user_id, d.tool_name, d.tool_params, [("error", .str m)], "error"⟩])

/-- Embeds `ConfirmationHandler.reject_confirmation`: revalidate, mark rejected,
delete the pending record; no execution and no audit entry. -/
def reject_confirmation (store : ConfStore) (cid user_id : String) (now : Nat) :
    ConfirmOutcome × ConfStore :=
  match validate_confirmation store cid user_id now with
  | (.error e, store1) => (.confErr e, store1)
  | (.ok d, store1) =>
    let d1 := { d with status := "rejected", rejected_at := some now }
    let store2 := storeSet store1 cid d1
    (.rejected d.tool_name d.tool_params, storeErase store2 cid)

/-- Embeds `ConfirmationHandler.get_pending_confirmations`: owner-scoped listing of
pending, unexpired records; no mutation. -/
def get_pending_confirmations (store : ConfStore) (user_id : String) (now : Nat) :
    List (String × ConfirmationData) :=
  store.filter (fun p =>
    p.2.user_id == user_id && p.2.status == "pending" && decide (now ≤ p.2.expires_at))

/-- Embeds `ConfirmationHandler.cleanup_expired_confirmations`: drop every record
past its TTL. -/
def cleanup_expired_confirmations (store : ConfStore) (now : Nat) : ConfStore :=
  store.filter (fun p => !(decide (p.2.expires_at < now)))

/-! ## Agent service (`agent_service.py`) -/

/-- Python substring test `pat in s` on character lists. -/
def infixOf (pat : List Char) : List Char → Bool
  | [] => pat.isEmpty
  | c :: rest => pat.isPrefixOf (c :: rest) || infixOf pat rest

/-- Python `pat in s` on strings. -/
def pyIn (pat s : String) : Bool := infixOf pat.data s.data

/-- One `{role, content}` message of the model-call sequence. -/
structure ModelMsg where
  role : String
  content : String
deriving DecidableEq, Repr

/-- One tool invocation requested by the model: `{id, function.name,
function.arguments}`, the JSON argument string already parsed. -/
structure ToolCallReq where
  id : String
  name : String
  args : Params
deriving DecidableEq, Repr

/-- The chat-completion response consumed by the orchestrator: optional
assistant text and zero or more tool calls. -/
structure ModelResponse where
  content : Option String
  tool_calls : List ToolCallReq
deriving DecidableEq, Repr

/-- The fixed system instruction of `process_command`. -/
def system_instruction : ModelMsg :=
  ⟨"system",
   "You are a helpful todo management assistant. Help users manage their tasks using the available tools. Always confirm destructive actions like deletions before proceeding."⟩

/-- Message assembly of `process_command` lines 122-134: the fixed system
instruction, then the reconstructed context when non-empty, then the raw
user message. -/
def build_messages (context : List ModelMsg) (message : String) : List ModelMsg :=
  let messages := [system_instruction]
  let messages := if context.isEmpty then messages else messages ++ context
  messages ++ [⟨"user", message⟩]

/-- Embeds `AIAgentService._sanitize_input`: trim, collapse runs of internal
whitespace.  The prompt-injection patterns are only logged, never removed,
and the source goes on to send the ORIGINAL message to the model, using
this value only in a log line. -/
def sanitize_input (message : String) : String :=
  " ".intercalate (((pyStrip message).split Char.isWhitespace).filter (fun s => !s.data.isEmpty))

/-- Embeds `AIAgentService._is_destructive_operation`: the explicit allow-list,
currently delete only. -/
def is_destructive_operation (tool_name : String) : Bool :=
  tool_name == "delete_task"

/-- The fixed harmful-indicator list of `_moderate_ai_response`. -/
def harmful_indicators : List String :=
  ["ignore previous", "disregard instructions", "system prompt", "as an ai language model"]

/-- The fixed safe refusal substituted for a flagged response. -/
def safe_refusal : String :=
  "I apologize, but I cannot process that request. Please try rephrasing your command."

/-- Embeds `AIAgentService._moderate_ai_response`: substitute the fixed refusal on
any (case-insensitive) harmful-indicator hit, else truncate past 2000
characters to the first 1997 plus an ellipsis, else return unchanged. -/
def moderate_ai_response (response : String) : String :=
  if harmful_indicators.any (fun ind => pyIn ind (pyLower response)) then
    safe_refusal
  else if response.length > 2000 then
    String.mk (response.data.take 1997) ++ "..."
  else
    response

/-- The transient-error vocabulary of `_call_ai_model_with_retry`. -/
def transient_errors : List String :=
  ["timeout", "connection", "rate limit", "503", "502", "500", "429"]

/-- A failure is retried only when its text (lower-cased) contains one of
the transient markers. -/
def is_transient_error (err : String) : Bool :=
  transient_errors.any (fun p => pyIn p (pyLower err))

/-- Observable trace of one `_call_ai_model_with_retry` run: how many
attempts were made, the backoff delays slept between them, and the final
outcome (the response, or the exception text that was raised). -/
structure RetryTrace where
  attempts : Nat
  delays : List Nat
  outcome : Except String ModelResponse
deriving Repr

/-- The retry loop body: `attemptsF k` is the outcome of the k-th call to
the model client.  Mirrors `for attempt in range(max_retries)`: a failure
is re-raised at once when non-transient or when it is the last allowed
attempt, otherwise the loop sleeps `base_delay * 2 ^ attempt` and retries. -/
def retry_from (attemptsF : Nat → Except String ModelResponse) (base_delay : Nat)
    (attempt remaining : Nat) : RetryTrace :=
  if remaining = 0 then
    ⟨0, [], .error "AI model call failed after 0 attempts: None"⟩
  else
    match attemptsF attempt with
    | .ok r => ⟨1, [], .ok r⟩
    | .error e =>
      if !(is_transient_error e) || remaining = 1 then
        ⟨1, [], .error e⟩
      else
        let t := retry_from attemptsF base_delay (attempt + 1) (remaining - 1)
        ⟨t.attempts + 1, base_delay * 2 ^ attempt :: t.delays, t.outcome⟩
termination_by remaining

/-- Embeds `AIAgentService._call_ai_model_with_retry` with its configured
`max_retries` and `base_delay`. -/
def call_ai_model_with_retry (attemptsF : Nat → Except String ModelResponse)
    (max_retries base_delay : Nat) : RetryTrace :=
  retry_from attemptsF base_delay 0 max_retries

/-- Embeds `getattr(MCPToolName, name.upper())`: the enum member when the
upper-cased name matches, the enum value being the lower-cased tool name;
absent members raise `AttributeError`. -/
def mcpToolName? (s : String) : Option String :=
  if pyLower s == "add_task" || pyLower s == "list_tasks" || pyLower s == "update_task"
      || pyLower s == "complete_task" || pyLower s == "delete_task" then
    some (pyLower s)
  else none

/-- One entry of the `tool_calls` list returned to the caller
(`MCPToolCall`; the timestamp is not modelled). -/
structure MCPToolCall where
  id : String
  tool_name : String
  tool_params : Params
  result : Option Params
  status : String
deriving DecidableEq, Repr

/-- Embeds `AIAgentService._execute_mcp_tool`: dispatch on the exact tool name
(unknown names raise `ToolExecutionError`); `UserPermissionError` is
re-raised unwrapped, every other exception is wrapped in
`ToolExecutionError`.  The adapter layer and its database effects are the
`adapters` oracle. -/
def execute_mcp_tool (adapters : String → Params → Except PyExc Params)
    (tool_name : String) (params : Params) : Except PyExc Params :=
  let body : Except PyExc Params :=
    if tool_name == "add_task" || tool_name == "list_tasks" || tool_name == "update_task"
        || tool_name == "complete_task" || tool_name == "delete_task" then
      adapters tool_name params
    else
      .error (.toolExecution ("Unknown tool: " ++ tool_name))
  match body with
  | .ok r => .ok r
  | .error e =>
    match e with
    | .userPermission m => .error (.userPermission m)
    | e => .error (.toolExecution ("Error executing tool " ++ tool_name ++ ": " ++ e.toStr))

/-- The `except Exception` handler of the per-tool-call loop
(`process_command` lines 201-222): write one error audit entry with the
re-parsed model-supplied arguments, then build the error-status result
entry — whose `getattr` lookup itself raises for an unknown tool name and
escapes the loop. -/
def per_call_except (user_id : String) (tc : ToolCallReq) (e : PyExc) :
    Except PyExc (MCPToolCall × Bool) × List AuditEntry :=
  let entry : AuditEntry :=
    ⟨user_id, tc.name, tc.args, [("error", .str e.toStr)], "error"⟩
  match mcpToolName? tc.name with
  | some n =>
    (.ok (⟨tc.id, n, tc.args, some [("error", .str e.toStr)], "error"⟩, false), [entry])
  | none =>
    (.error (.attributeError ("type object MCPToolName has no attribute " ++ pyUpper tc.name)),
     [entry])

/-- One iteration of the per-tool-call loop of `process_command`: defer a
destructive call as a pending entry (no execution, no audit write), or
inject the caller identity, execute, and audit the attempt; any exception
is handled per-call by `per_call_except`.  Returns the produced
`tool_calls` entry with the confirmation flag, or the escaping exception,
together with the audit entries written. -/
def process_tool_call (user_id : String) (requires_confirmation : Bool)
    (adapters : String → Params → Except PyExc Params) (tc : ToolCallReq) :
    Except PyExc (MCPToolCall × Bool) × List AuditEntry :=
  if requires_confirmation && is_destructive_operation tc.name then
    match mcpToolName? tc.name with
    | some n => (.ok (⟨tc.id, n, tc.args, none, "pending"⟩, true), [])
    | none =>
      per_call_except user_id tc
        (.attributeError ("type object MCPToolName has no attribute " ++ pyUpper tc.name))
  else
    match execute_mcp_tool adapters tc.name (paramSet tc.args "user_id" (.str user_id)) with
    | .ok result =>
      match mcpToolName? tc.name with
      | some n =>
        (.ok (⟨tc.id, n, paramSet tc.args "user_id" (.str user_id), some result, "success"⟩,
              false),
         [⟨user_id, tc.name, paramSet tc.args "user_id" (.str user_id), result, "success"⟩])
      | none =>
        ((per_call_except user_id tc
            (.attributeError ("type object MCPToolName has no attribute " ++ pyUpper tc.name))).1,
         ⟨user_id, tc.name, paramSet tc.args "user_id" (.str user_id), result, "success"⟩
           :: (per_call_except user_id tc
                (.attributeError ("type object MCPToolName has no attribute " ++ pyUpper tc.name))).2)
    | .error e => per_call_except user_id tc e

/-- The whole per-tool-call loop, in model order; an escaping exception
aborts the remaining calls but the audit entries already written remain. -/
def run_tool_calls (user_id : String) (requires_confirmation : Bool)
    (adapters : String → Params → Except PyExc Params) :
    List ToolCallReq → Except PyExc (List MCPToolCall × Bool) × List AuditEntry
  | [] => (.ok ([], false), [])
  | tc :: rest =>
    match process_tool_call user_id requires_confirmation adapters tc with
    | (.error e, a) => (.error e, a)
    | (.ok (call, fl), a) =>
      match run_tool_calls user_id requires_confirmation adapters rest with
      | (.error e, a2) => (.error e, a ++ a2)
      | (.ok (calls, fl2), a2) => (.ok (call :: calls, fl || fl2), a ++ a2)

/-- The aggregated return value of `process_command`. -/
structure ProcessResult where
  response : String
  tool_calls : List MCPToolCall
  requires_confirmation : Bool
deriving DecidableEq, Repr

/-- The process-wide mutable state touched (or, for the pending store,
NOT touched) by `process_command`: the service shutdown flag, the
`ToolCallLog` table, and the pending store of the confirmation handler singleton
store. -/
structure Globals where
  shutdown : Bool
  audit : List AuditEntry
  pending : ConfStore
deriving DecidableEq, Repr

/-- Python `ai_message.content or default`: None and the empty string both
fall back to the default acknowledgement. -/
def response_content_of (content : Option String) : String :=
  match content with
  | none => "I\x27ve processed your request."
  | some c => if c.data.isEmpty then "I\x27ve processed your request." else c

/-- The body of the big `try` block of `process_command`: input validation,
context retrieval, model call, the per-tool-call loop, response
moderation. -/
def process_command_body (user_id message : String) (requires_confirmation : Bool)
    (ctx : Except PyExc (List ModelMsg))
    (model : List ModelMsg → Except PyExc ModelResponse)
    (adapters : String → Params → Except PyExc Params)
    (g : Globals) : Except PyExc ProcessResult × Globals :=
  if message.data.isEmpty || (pyStrip message).data.isEmpty then
    (.error (.aiProcessing "Message cannot be empty"), g)
  else if message.length > 1000 then
    (.error (.aiProcessing "Message is too long. Please keep it under 1000 characters."), g)
  else
    match ctx with
    | .error e => (.error e, g)
    | .ok context =>
      match model (build_messages context message) with
      | .error e => (.error (.aiProcessing ("AI model error: " ++ e.toStr)), g)
      | .ok resp =>
        match run_tool_calls user_id requires_confirmation adapters resp.tool_calls with
        | (.error e, a) => (.error e, { g with audit := g.audit ++ a })
        | (.ok (calls, fl), a) =>
          (.ok ⟨moderate_ai_response (response_content_of resp.content), calls, fl⟩,
           { g with audit := g.audit ++ a })

/-- The outer `except` chain of `process_command`: `AIProcessingError`,
`ContextRetrievalError` and `ToolExecutionError` are re-raised as-is;
every other exception — `UserPermissionError` included — is replaced by a
generic `AIProcessingError`. -/
def except_wrap (r : Except PyExc ProcessResult × Globals) :
    Except PyExc ProcessResult × Globals :=
  match r with
  | (.error e, g2) =>
    match e with
    | .aiProcessing m => (.error (.aiProcessing m), g2)
    | .contextRetrieval m => (.error (.contextRetrieval m), g2)
    | .toolExecution m => (.error (.toolExecution m), g2)
    | _ => (.error (.aiProcessing
        "Sorry, I encountered an unexpected error while processing your request. Please try again."), g2)
  | ok => ok

/-- Embeds `AIAgentService.process_command`: shutdown gate, then the try body
under the outer exception chain. -/
def process_command (user_id message : String) (requires_confirmation : Bool)
    (ctx : Except PyExc (List ModelMsg))
    (model : List ModelMsg → Except PyExc ModelResponse)
    (adapters : String → Params → Except PyExc Params)
    (g : Globals) : Except PyExc ProcessResult × Globals :=
  if g.shutdown then
    (.error (.aiProcessing "Service is shutting down, cannot process new requests"), g)
  else
    except_wrap (process_command_body user_id message requires_confirmation ctx model adapters g)

/-! ## Concrete instances used by witnesses and counterexamples -/

/-- A task owned by user u2, the store-assigned id being 1. -/
def c1task : Task := ⟨1, "u2", "Buy milk", none, false, "medium", 0, 0⟩

/-- A one-row task store holding only the task of u2. -/
def c1db : List Task := [c1task]

/-- Parameters of a deferred destructive call. -/
def c2params : Params := [("task_id", .num 5)]

/-- A pending confirmation of user u1 for a delete, created at 0, expiring
at 600. -/
def c2data : ConfirmationData :=
  ⟨"u1", "delete_task", c2params, none, 0, 600, "pending", none, none⟩

/-- A pending store holding only that confirmation, under id c1. -/
def c2store : ConfStore := [("c1", c2data)]

/-- An executor whose execution raises. -/
def c2execFail : Executor := fun _ _ => .error "database connection lost"

/-- An executor whose execution succeeds. -/
def c2execOk : Executor := fun _ _ => .ok [("status", .str "success")]

/-- A pending confirmation of user u1 used by the owner-only claim. -/
def c3data : ConfirmationData :=
  ⟨"u1", "delete_task", [("task_id", .num 7)], none, 0, 600, "pending", none, none⟩

/-- A pending store holding only that confirmation, under id c3. -/
def c3store : ConfStore := [("c3", c3data)]

/-- Model-supplied arguments of an update tool call (note: no user_id). -/
def c4args : Params := [("task_id", .num 7), ("title", .str "x")]

/-- A model response requesting one update_task call. -/
def c4resp : ModelResponse := ⟨some "Done.", [⟨"call_1", "update_task", c4args⟩]⟩

/-- An adapter layer whose execution raises `UserPermissionError` (the
caller does not own the referenced task). -/
def c4adapters : String → Params → Except PyExc Params :=
  fun _ _ => .error (.userPermission "User u1 does not own task 7")

/-- Fresh global state: service live, no audit entries, no pending
confirmations. -/
def c4g : Globals := ⟨false, [], []⟩

/-- Model-supplied arguments of a delete tool call. -/
def c5args : Params := [("task_id", .num 5)]

/-- A model response requesting one destructive (delete_task) call. -/
def c5resp : ModelResponse := ⟨some "Are you sure?", [⟨"call_1", "delete_task", c5args⟩]⟩

/-- An adapter layer that is never reached by a deferred call. -/
def c5adapters : String → Params → Except PyExc Params :=
  fun _ _ => .error (.toolExecution "not reached")

/-- An adapter layer whose execution succeeds. -/
def c5okAdapters : String → Params → Except PyExc Params :=
  fun _ _ => .ok [("status", .str "success")]

/-- Fresh global state for the audit claim. -/
def c5g : Globals := ⟨false, [], []⟩

/-- A non-empty reconstructed context, as the Context Assembler produces. -/
def c7ctx : List ModelMsg := [⟨"system", "Recent tasks: Buy milk"⟩]

/-- A task of user u1 used by the parameter-validation claim. -/
def c9task : Task := ⟨1, "u1", "Buy milk", none, false, "medium", 0, 0⟩

/-- A one-row task store holding the task of u1. -/
def c9db : List Task := [c9task]

/-- A 5001-character description, one character past the documented 5000
bound. -/
def long_desc : String := ⟨List.replicate 5001 'a'⟩

/-! ## Helper lemmas -/

/-- Looking up a key just deleted from the pending store yields nothing. -/
theorem storeLookup_storeErase (store : ConfStore) (cid : String) :
    storeLookup (storeErase store cid) cid = none := by
  induction store with
  | nil => rfl
  | cons p rest ih =>
    rw [storeErase]
    by_cases h : p.1 = cid
    · rw [if_pos (by simpa using h)]
      exact ih
    · rw [if_neg (by simpa using h), storeLookup, if_neg (by simpa using h)]
      exact ih

/-- Mutating the record under a present key makes the lookup return the new
record. -/
theorem storeLookup_storeSet (store : ConfStore) (cid : String)
    (d d1 : ConfirmationData) (h : storeLookup store cid = some d) :
    storeLookup (storeSet store cid d1) cid = some d1 := by
  induction store with
  | nil => simp [storeLookup] at h
  | cons p rest ih =>
    rw [storeSet]
    by_cases hp : p.1 = cid
    · rw [if_pos (by simpa using hp), storeLookup, if_pos (by simp)]
    · rw [storeLookup, if_neg (by simpa using hp)] at h
      rw [if_neg (by simpa using hp), storeLookup, if_neg (by simpa using hp)]
      exact ih h

/-- Ownership verification fails for a requester who is not the owner of
the (unique) task carrying the looked-up id. -/
theorem verify_owns_false_of_other_owner (db : List Task) (A B : String) (τ : Task)
    (hAB : A ≠ B) (hown : τ.user_id = A)
    (huniq : ∀ t ∈ db, t.id = τ.id → t = τ) :
    verify_user_owns_task db B τ.id = false := by
  rw [verify_user_owns_task, List.any_eq_false]
  intro t ht
  simp only [Bool.and_eq_true, beq_iff_eq, not_and]
  intro hid huser
  have := huniq t ht hid
  subst this
  exact hAB (hown ▸ huser ▸ rfl)

/-- A task belonging to another owner never survives the owner filter of
`list_tasks`. -/
theorem not_mem_owner_filter (db : List Task) (A B : String) (τ : Task)
    (hAB : A ≠ B) (hown : τ.user_id = A) :
    τ ∉ db.filter (fun t => t.user_id == B) := by
  intro hmem
  have := (List.mem_filter.mp hmem).2
  rw [beq_iff_eq, hown] at this
  exact hAB this

/-- A tool call that executed successfully carries one of the five exact
tool names, so the `MCPToolName` enum lookup succeeds on it. -/
theorem mcpToolName_of_execute_ok
    (adapters : String → Params → Except PyExc Params) (n : String) (p r : Params)
    (h : execute_mcp_tool adapters n p = .ok r) :
    mcpToolName? n = some n := by
  by_cases hn : (n == "add_task" || n == "list_tasks" || n == "update_task"
      || n == "complete_task" || n == "delete_task") = true
  · simp only [Bool.or_eq_true, beq_iff_eq] at hn
    rcases hn with (((h1 | h2) | h3) | h4) | h5 <;> subst_vars <;> rfl
  · rw [execute_mcp_tool] at h
    rw [if_neg hn] at h
    simp at h

/-- A tool call whose name is a known enum member never escapes the
per-call exception handler. -/
theorem process_tool_call_isOk_of_known (user_id : String) (rc : Bool)
    (adapters : String → Params → Except PyExc Params) (tc : ToolCallReq) (n : String)
    (h : mcpToolName? tc.name = some n) :
    ∃ c fl a, process_tool_call user_id rc adapters tc = (.ok (c, fl), a) := by
  rw [process_tool_call]
  split
  · rw [h]
    exact ⟨_, _, _, rfl⟩
  · cases hex : execute_mcp_tool adapters tc.name (paramSet tc.args "user_id" (.str user_id)) with
    | ok r =>
      dsimp only
      rw [h]
      exact ⟨_, _, _, rfl⟩
    | error e =>
      dsimp only
      rw [per_call_except, h]
      exact ⟨_, _, _, rfl⟩

/-- Over known tool names the loop never aborts and its audit output is the
concatenation of the per-call audit outputs, in model order. -/
theorem run_tool_calls_audit (user_id : String) (rc : Bool)
    (adapters : String → Params → Except PyExc Params) (tcs : List ToolCallReq)
    (hknown : ∀ t ∈ tcs, ∃ n, mcpToolName? t.name = some n) :
    (run_tool_calls user_id rc adapters tcs).2
      = (tcs.map (fun t => (process_tool_call user_id rc adapters t).2)).flatten
  ∧ ∃ calls fl, (run_tool_calls user_id rc adapters tcs).1 = .ok (calls, fl) := by
  induction tcs with
  | nil => exact ⟨rfl, [], false, rfl⟩
  | cons tc rest ih =>
    obtain ⟨n, hn⟩ := hknown tc (List.mem_cons_self tc rest)
    obtain ⟨c, fl, a, hpc⟩ := process_tool_call_isOk_of_known user_id rc adapters tc n hn
    obtain ⟨ha2, calls2, fl2, hok2⟩ := ih (fun t ht => hknown t (List.mem_cons_of_mem _ ht))
    cases hr : run_tool_calls user_id rc adapters rest with
    | mk fst snd =>
      rw [hr] at ha2 hok2
      dsimp only at ha2 hok2
      subst hok2
      constructor
      · show (run_tool_calls user_id rc adapters (tc :: rest)).2 = _
        rw [run_tool_calls, hpc, hr]
        simp [hpc, ha2]
      · exact ⟨c :: calls2, fl || fl2, by rw [run_tool_calls, hpc, hr]⟩

/-- A positive ownership check guarantees the row fetch by id succeeds. -/
theorem find_isSome_of_verify (db : List Task) (uid : String) (task_id : Nat)
    (h : verify_user_owns_task db uid task_id = true) :
    ∃ τ, db.find? (fun t => t.id == task_id) = some τ := by
  rw [verify_user_owns_task, List.any_eq_true] at h
  obtain ⟨t, ht, hp⟩ := h
  rw [Bool.and_eq_true] at hp
  have hs : (db.find? (fun t => t.id == task_id)).isSome := by
    rw [List.find?_isSome]
    exact ⟨t, ht, hp.1⟩
  exact Option.isSome_iff_exists.mp hs

/-! ## Claims -/

/-- C1: per-user task isolation.  For distinct owners A and B and a task of
A (its id unique in the store), `update_task`, `complete_task` and
`delete_task` invoked by B on that id return the
`TASK_NOT_FOUND_OR_UNAUTHORIZED` error and leave the store unchanged, and
`list_tasks` for B never includes the task; ownership is decided by
`verify_user_owns_task`, a lookup matching both id and owner. -/
theorem C1_per_user_task_isolation (db : List Task) (A B : String) (τ : Task)
    (hv : validate_user_id B = true) (hAB : A ≠ B)
    (_hmem : τ ∈ db) (hown : τ.user_id = A)
    (huniq : ∀ t ∈ db, t.id = τ.id → t = τ) :
    (∀ title description priority completed now,
      update_task db B τ.id title description priority completed now
        = (.err ⟨"TASK_NOT_FOUND_OR_UNAUTHORIZED",
                 "Task not found or user not authorized to update it"⟩, db))
  ∧ (∀ completed now, complete_task db B τ.id completed now
        = (.err ⟨"TASK_NOT_FOUND_OR_UNAUTHORIZED",
                 "Task not found or user not authorized to update it"⟩, db))
  ∧ delete_task db B τ.id
        = (.err ⟨"TASK_NOT_FOUND_OR_UNAUTHORIZED",
                 "Task not found or user not authorized to delete it"⟩, db)
  ∧ (∀ status tasks message, list_tasks db B status = .listOk tasks message → τ ∉ tasks) := by
  have hverify := verify_owns_false_of_other_owner db A B τ hAB hown huniq
  refine ⟨?_, ?_, ?_, ?_⟩
  · intro title description priority completed now
    simp [update_task, hv, hverify]
  · intro completed now
    simp [complete_task, update_task, hv, hverify]
  · simp [delete_task, hv, hverify]
  · intro status tasks message hlist
    have hbase := not_mem_owner_filter db A B τ hAB hown
    cases status with
    | none =>
      simp only [list_tasks, hv, Bool.not_true, Bool.false_eq_true, if_false,
        TaskOpResult.listOk.injEq] at hlist
      exact hlist.1 ▸ hbase
    | some st =>
      simp only [list_tasks, hv, Bool.not_true, Bool.false_eq_true, if_false] at hlist
      split at hlist <;> [skip; split at hlist] <;> [skip; skip; split at hlist] <;>
        simp only [TaskOpResult.listOk.injEq] at hlist <;>
        (first
          | exact hlist.1 ▸ hbase
          | · intro hτ
              rw [← hlist.1] at hτ
              exact hbase (List.mem_of_mem_filter hτ))

/-- Witness for C1 at a concrete store: user u1 acting on task 1 of u2. -/
theorem C1_witness :
    update_task c1db "u1" 1 (some "x") none none none 7
      = (.err ⟨"TASK_NOT_FOUND_OR_UNAUTHORIZED",
               "Task not found or user not authorized to update it"⟩, c1db)
  ∧ delete_task c1db "u1" 1
      = (.err ⟨"TASK_NOT_FOUND_OR_UNAUTHORIZED",
               "Task not found or user not authorized to delete it"⟩, c1db) := by
  have h := C1_per_user_task_isolation c1db "u2" "u1" c1task (by decide)
    (by decide) (by decide) rfl (by decide)
  exact ⟨h.1 (some "x") none none none 7, h.2.2.1⟩

/-- C2 counterexample: `approve_confirmation` of a valid pending
confirmation with an executor that raises re-raises the executor failure
but leaves the confirmation record in pending storage — the deletion after
the try block is skipped — contradicting the claim that the record is
deleted whether the executor succeeds or raises. -/
theorem C2_counterexample :
    (approve_confirmation c2store "c1" "u1" 5 (some c2execFail)).1
      = .execRaise "database connection lost"
  ∧ storeLookup (approve_confirmation c2store "c1" "u1" 5 (some c2execFail)).2.1 "c1"
      ≠ none := by
  decide

/-- C2 (amended): a confirmation is consumed exactly once, but deletion
from pending storage happens only on approve-with-successful-executor and
on reject (after which validation of the id reports NotFound); when the
executor raises, the failure propagates and the record remains in the
store with status approved, so later validations report NotPending — the
confirmation is never again approvable, but it does not behave as
NotFound. -/
theorem C2_confirmation_consumed_once (store : ConfStore) (cid uid : String) (now : Nat)
    (d : ConfirmationData) (f : Executor)
    (hlook : storeLookup store cid = some d)
    (hpend : d.status = "pending") (howner : d.user_id = uid)
    (hfresh : ¬ d.expires_at < now) :
    (∀ r, f d.tool_name d.tool_params = .ok r →
      storeLookup (approve_confirmation store cid uid now (some f)).2.1 cid = none
      ∧ ∀ u2 n2,
          (validate_confirmation (approve_confirmation store cid uid now (some f)).2.1 cid u2 n2).1
            = .error (.notFound cid))
  ∧ (storeLookup (reject_confirmation store cid uid now).2 cid = none
      ∧ ∀ u2 n2,
          (validate_confirmation (reject_confirmation store cid uid now).2 cid u2 n2).1
            = .error (.notFound cid))
  ∧ (∀ m, f d.tool_name d.tool_params = .error m →
      (approve_confirmation store cid uid now (some f)).1 = .execRaise m
      ∧ storeLookup (approve_confirmation store cid uid now (some f)).2.1 cid
          = some { d with status := "approved", approved_at := some now }
      ∧ ∀ u2 n2,
          (validate_confirmation (approve_confirmation store cid uid now (some f)).2.1 cid u2 n2).1
            = .error (.notPending cid)) := by
  have hval : validate_confirmation store cid uid now = (.ok d, store) := by
    simp [validate_confirmation, hlook, hpend, howner, hfresh]
  refine ⟨?_, ?_, ?_⟩
  · intro r hr
    have hstore :
        (approve_confirmation store cid uid now (some f)).2.1
          = storeErase (storeSet store cid { d with status := "approved", approved_at := some now }) cid := by
      simp [approve_confirmation, hval, hr]
    refine ⟨?_, ?_⟩
    · rw [hstore]; exact storeLookup_storeErase ..
    · intro u2 n2
      rw [hstore, validate_confirmation.eq_def]
      rw [storeLookup_storeErase]
  · have hstore :
        (reject_confirmation store cid uid now).2
          = storeErase (storeSet store cid { d with status := "rejected", rejected_at := some now }) cid := by
      simp [reject_confirmation, hval]
    refine ⟨?_, ?_⟩
    · rw [hstore]; exact storeLookup_storeErase ..
    · intro u2 n2
      rw [hstore, validate_confirmation.eq_def]
      rw [storeLookup_storeErase]
  · intro m hm
    have hstore :
        (approve_confirmation store cid uid now (some f)).2.1
          = storeSet store cid { d with status := "approved", approved_at := some now } := by
      simp [approve_confirmation, hval, hm]
    have hlook2 :
        storeLookup (storeSet store cid { d with status := "approved", approved_at := some now }) cid
          = some { d with status := "approved", approved_at := some now } :=
      storeLookup_storeSet store cid d _ hlook
    refine ⟨by simp [approve_confirmation, hval, hm], by rw [hstore]; exact hlook2, ?_⟩
    intro u2 n2
    rw [hstore, validate_confirmation.eq_def, hlook2]
    simp

/-- Witness for C2 at the concrete store: a successful approval and a
rejection both delete the record. -/
theorem C2_witness :
    storeLookup (approve_confirmation c2store "c1" "u1" 5 (some c2execOk)).2.1 "c1" = none
  ∧ storeLookup (reject_confirmation c2store "c1" "u1" 5).2 "c1" = none := by
  have h := C2_confirmation_consumed_once c2store "c1" "u1" 5 c2data c2execOk
    rfl rfl rfl (by decide)
  exact ⟨(h.1 [("status", .str "success")] rfl).1, h.2.1.1⟩

/-- C3: only the owner can act on a pending confirmation.  For a pending,
unexpired confirmation of owner A, `validate_confirmation`,
`approve_confirmation` (with any executor) and `reject_confirmation`
invoked by a requester B distinct from A all raise `UserPermissionError`,
execute nothing (no audit entry, no executor effect reflected anywhere),
and leave the store unchanged with the record still pending. -/
theorem C3_confirmation_owner_only (store : ConfStore) (cid A B : String) (now : Nat)
    (d : ConfirmationData)
    (hlook : storeLookup store cid = some d) (hpend : d.status = "pending")
    (howner : d.user_id = A) (_hfresh : ¬ d.expires_at < now) (hne : B ≠ A) :
    validate_confirmation store cid B now = (.error .permissionDenied, store)
  ∧ (∀ ex, approve_confirmation store cid B now ex = (.confErr .permissionDenied, store, []))
  ∧ reject_confirmation store cid B now = (.confErr .permissionDenied, store)
  ∧ storeLookup store cid = some d ∧ d.status = "pending" := by
  have hAB : (d.user_id != B) = true := by
    rw [howner]
    exact bne_iff_ne.mpr (fun hh => hne hh.symm)
  have hval : validate_confirmation store cid B now = (.error .permissionDenied, store) := by
    simp [validate_confirmation, hlook, hpend, hAB]
  refine ⟨hval, ?_, ?_, hlook, hpend⟩
  · intro ex
    simp [approve_confirmation, hval]
  · simp [reject_confirmation, hval]

/-- Witness for C3 at the concrete store: requester u2 on a pending
confirmation. -/
theorem C3_witness :
    validate_confirmation c3store "c3" "u2" 5 = (.error .permissionDenied, c3store)
  ∧ reject_confirmation c3store "c3" "u2" 5 = (.confErr .permissionDenied, c3store) := by
  have h := C3_confirmation_owner_only c3store "c3" "u1" "u2" 5 c3data
    rfl rfl rfl (by decide) (by decide)
  exact ⟨h.1, h.2.2.1⟩

/-- C4: the claim says a `UserPermissionError` raised while executing a
tool call propagates out of `process_command`; evaluating the code at the
failing input shows the opposite — the per-call `except Exception` handler
catches it, audits it with status error, and returns it as an error-status
entry in `tool_calls`, with `process_command` returning normally. -/
theorem C4_user_permission_downgraded :
    process_command "u1" "update my task" false (.ok []) (fun _ => .ok c4resp) c4adapters c4g
      = (.ok ⟨"Done.",
          [⟨"call_1", "update_task", c4args,
            some [("error", .str "[USER_PERMISSION_ERROR] User u1 does not own task 7")],
            "error"⟩], false⟩,
         ⟨false,
          [⟨"u1", "update_task", c4args,
            [("error", .str "[USER_PERMISSION_ERROR] User u1 does not own task 7")],
            "error"⟩],
          []⟩) := by
  rfl

/-- C5 counterexample: a chat request that defers a destructive call as
pending writes NO audit entry at all — the audit log is unchanged although
the response contains the pending tool call — contradicting the claim that
every deferred destructive call produces a pending-status audit entry at
the moment it is deferred. -/
theorem C5_counterexample :
    process_command "u1" "Delete task 5" true (.ok []) (fun _ => .ok c5resp) c5adapters c5g
      = (.ok ⟨"Are you sure?",
              [⟨"call_1", "delete_task", c5args, none, "pending"⟩], true⟩,
         ⟨false, [], []⟩) := by
  rfl

/-- C5 (amended): every tool call that `process_command` executes produces
exactly one audit entry — on success with the executed (identity-injected)
parameters and status success, on failure with the re-parsed model-supplied
parameters and status error — and the loop appends exactly the
concatenation of these per-call entries in model order; a deferred
(pending) destructive call produces NO audit entry, being recorded only as
a pending entry in the response. -/
theorem C5_audit_per_executed_call (user_id : String) (rc : Bool)
    (adapters : String → Params → Except PyExc Params) (tc : ToolCallReq) :
    (rc = true → is_destructive_operation tc.name = true →
      process_tool_call user_id rc adapters tc
        = (.ok (⟨tc.id, tc.name, tc.args, none, "pending"⟩, true), []))
  ∧ (∀ r, (rc && is_destructive_operation tc.name) = false →
      execute_mcp_tool adapters tc.name (paramSet tc.args "user_id" (.str user_id)) = .ok r →
      (process_tool_call user_id rc adapters tc).2
        = [⟨user_id, tc.name, paramSet tc.args "user_id" (.str user_id), r, "success"⟩])
  ∧ (∀ e, (rc && is_destructive_operation tc.name) = false →
      execute_mcp_tool adapters tc.name (paramSet tc.args "user_id" (.str user_id)) = .error e →
      (process_tool_call user_id rc adapters tc).2
        = [⟨user_id, tc.name, tc.args, [("error", .str e.toStr)], "error"⟩])
  ∧ (∀ tcs : List ToolCallReq, (∀ t ∈ tcs, ∃ n, mcpToolName? t.name = some n) →
      (run_tool_calls user_id rc adapters tcs).2
        = (tcs.map (fun t => (process_tool_call user_id rc adapters t).2)).flatten) := by
  refine ⟨?_, ?_, ?_, ?_⟩
  · intro hrc hdest
    have hname : tc.name = "delete_task" := by
      simpa [is_destructive_operation] using hdest
    rw [process_tool_call, if_pos (by rw [hrc, hdest]; rfl), hname]
    rfl
  · intro r hng hex
    rw [process_tool_call, if_neg (by rw [hng]; simp), hex,
      mcpToolName_of_execute_ok adapters tc.name _ r hex]
  · intro e hng hex
    have hred : process_tool_call user_id rc adapters tc = per_call_except user_id tc e := by
      rw [process_tool_call, if_neg (by rw [hng]; simp), hex]
    rw [hred, per_call_except]
    cases hm : mcpToolName? tc.name <;> rfl
  · intro tcs hknown
    exact (run_tool_calls_audit user_id rc adapters tcs hknown).1

/-- Witness for C5 at concrete calls: a deferred delete produces no audit
entry; an executed call produces exactly one success entry. -/
theorem C5_witness :
    process_tool_call "u1" true c5adapters ⟨"call_1", "delete_task", c5args⟩
      = (.ok (⟨"call_1", "delete_task", c5args, none, "pending"⟩, true), [])
  ∧ (process_tool_call "u1" false c5okAdapters ⟨"call_2", "list_tasks", []⟩).2
      = [⟨"u1", "list_tasks", [("user_id", .str "u1")],
          [("status", .str "success")], "success"⟩] := by
  have h1 := C5_audit_per_executed_call "u1" true c5adapters ⟨"call_1", "delete_task", c5args⟩
  have h2 := C5_audit_per_executed_call "u1" false c5okAdapters ⟨"call_2", "list_tasks", []⟩
  exact ⟨h1.1 rfl rfl, h2.2.1 [("status", .str "success")] rfl rfl⟩

/-- C7 counterexample: with a non-empty assembled context, the message
sequence sent to the model is NOT context-then-system-instruction-then-user
as the claim states. -/
theorem C7_counterexample :
    build_messages c7ctx "hello"
      ≠ c7ctx ++ [system_instruction, ⟨"user", "hello"⟩] := by
  decide

/-- C7 (amended): the message sequence sent to the model is the fixed
system instruction first, then the Context Assembler output, then the
user message, in that order. -/
theorem C7_message_order (context : List ModelMsg) (message : String) :
    build_messages context message
      = system_instruction :: (context ++ [⟨"user", message⟩]) := by
  cases context <;> simp [build_messages]

/-- C8: response moderation.  A response containing any harmful indicator
(case-insensitively) is replaced by the fixed safe refusal; otherwise a
response longer than 2000 characters is truncated to its first 1997
characters plus an ellipsis; otherwise it is returned unchanged; and the
moderated output never exceeds 2000 characters. -/
theorem C8_response_moderation (response : String) :
    (harmful_indicators.any (fun ind => pyIn ind (pyLower response)) = true →
      moderate_ai_response response = safe_refusal)
  ∧ (harmful_indicators.any (fun ind => pyIn ind (pyLower response)) = false →
      response.length > 2000 →
      moderate_ai_response response = String.mk (response.data.take 1997) ++ "...")
  ∧ (harmful_indicators.any (fun ind => pyIn ind (pyLower response)) = false →
      response.length ≤ 2000 →
      moderate_ai_response response = response)
  ∧ (moderate_ai_response response).length ≤ 2000 := by
  refine ⟨?_, ?_, ?_, ?_⟩
  · intro hmatch
    rw [moderate_ai_response, if_pos hmatch]
  · intro hmatch hlong
    rw [moderate_ai_response, if_neg (by rw [hmatch]; simp), if_pos hlong]
  · intro hmatch hshort
    rw [moderate_ai_response, if_neg (by rw [hmatch]; simp), if_neg (by omega)]
  · rw [moderate_ai_response]
    split
    · decide
    · split
      · have htrunc : (String.mk (response.data.take 1997) ++ "...").length
            = (response.data.take 1997).length + 3 := by
          simp [String.length_append]
          rfl
        rw [htrunc]
        have := List.length_take 1997 response.data
        omega
      · omega

/-- Witness for C8: a flagged response is replaced by the refusal; a short
clean response is unchanged. -/
theorem C8_witness :
    moderate_ai_response "As an AI language model, I cannot help with that." = safe_refusal
  ∧ moderate_ai_response "Task added." = "Task added." := by
  have h1 := C8_response_moderation "As an AI language model, I cannot help with that."
  have h2 := C8_response_moderation "Task added."
  exact ⟨h1.1 (by decide), h2.2.2.1 (by decide) (by decide)⟩

/-- C6: bounded transient-only retry.  With the configured
`max_retries = 3`, the model is attempted between 1 and 3 times; the j-th
retry is preceded by a delay of `base * 2 ^ j`; every non-final attempt
failed with a transient-classified error; and the run ends either with the
response of its last attempt, or by re-raising its last failure, the
latter only when that failure is non-transient or the attempt was the 3rd. -/
theorem C6_bounded_transient_retry (attemptsF : Nat → Except String ModelResponse)
    (base : Nat) :
    1 ≤ (call_ai_model_with_retry attemptsF 3 base).attempts
  ∧ (call_ai_model_with_retry attemptsF 3 base).attempts ≤ 3
  ∧ (call_ai_model_with_retry attemptsF 3 base).delays
      = (List.range ((call_ai_model_with_retry attemptsF 3 base).attempts - 1)).map
          (fun j => base * 2 ^ j)
  ∧ (∀ j, j + 1 < (call_ai_model_with_retry attemptsF 3 base).attempts →
      ∃ e, attemptsF j = .error e ∧ is_transient_error e = true)
  ∧ ((∃ r, attemptsF ((call_ai_model_with_retry attemptsF 3 base).attempts - 1) = .ok r
        ∧ (call_ai_model_with_retry attemptsF 3 base).outcome = .ok r)
    ∨ (∃ e, attemptsF ((call_ai_model_with_retry attemptsF 3 base).attempts - 1) = .error e
        ∧ (call_ai_model_with_retry attemptsF 3 base).outcome = .error e
        ∧ (is_transient_error e = false
            ∨ (call_ai_model_with_retry attemptsF 3 base).attempts = 3))) := by
  cases h0 : attemptsF 0 with
  | ok r0 =>
    have ht : call_ai_model_with_retry attemptsF 3 base = ⟨1, [], .ok r0⟩ := by
      rw [call_ai_model_with_retry, retry_from, if_neg (by omega), h0]
    rw [ht]; refine ⟨?_, ?_, ?_, ?_, ?_⟩
    · norm_num
    · norm_num
    · simp
    · intro j hj
      exact absurd hj (by simp)
    · exact .inl ⟨r0, by simpa using h0, rfl⟩
  | error e0 =>
    cases htr0 : is_transient_error e0 with
    | false =>
      have ht : call_ai_model_with_retry attemptsF 3 base = ⟨1, [], .error e0⟩ := by
        rw [call_ai_model_with_retry, retry_from, if_neg (by omega), h0]
        dsimp only
        rw [htr0]
        simp
      rw [ht]; refine ⟨?_, ?_, ?_, ?_, ?_⟩
      · norm_num
      · norm_num
      · simp
      · intro j hj
        exact absurd hj (by simp)
      · exact .inr ⟨e0, by simpa using h0, rfl, .inl htr0⟩
    | true =>
      cases h1 : attemptsF 1 with
      | ok r1 =>
        have hstep1 : retry_from attemptsF base 1 2 = ⟨1, [], .ok r1⟩ := by
          rw [retry_from, if_neg (by omega), h1]
        have ht : call_ai_model_with_retry attemptsF 3 base
            = ⟨2, [base * 2 ^ 0], .ok r1⟩ := by
          rw [call_ai_model_with_retry, retry_from, if_neg (by omega), h0]
          dsimp only
          rw [htr0]
          simp [hstep1]
        rw [ht]; refine ⟨?_, ?_, ?_, ?_, ?_⟩
        · norm_num
        · norm_num
        · simp [List.range_succ]
        · intro j hj
          have hj0 : j = 0 := by simp at hj; omega
          exact hj0 ▸ ⟨e0, h0, htr0⟩
        · exact .inl ⟨r1, by simpa using h1, rfl⟩
      | error e1 =>
        cases htr1 : is_transient_error e1 with
        | false =>
          have hstep1 : retry_from attemptsF base 1 2 = ⟨1, [], .error e1⟩ := by
            rw [retry_from, if_neg (by omega), h1]
            dsimp only
            rw [htr1]
            simp
          have ht : call_ai_model_with_retry attemptsF 3 base
              = ⟨2, [base * 2 ^ 0], .error e1⟩ := by
            rw [call_ai_model_with_retry, retry_from, if_neg (by omega), h0]
            dsimp only
            rw [htr0]
            simp [hstep1]
          rw [ht]; refine ⟨?_, ?_, ?_, ?_, ?_⟩
          · norm_num
          · norm_num
          · simp [List.range_succ]
          · intro j hj
            have hj0 : j = 0 := by simp at hj; omega
            exact hj0 ▸ ⟨e0, h0, htr0⟩
          · exact .inr ⟨e1, by simpa using h1, rfl, .inl htr1⟩
        | true =>
          cases h2 : attemptsF 2 with
          | ok r2 =>
            have hstep2 : retry_from attemptsF base 2 1 = ⟨1, [], .ok r2⟩ := by
              rw [retry_from, if_neg (by omega), h2]
            have hstep1 : retry_from attemptsF base 1 2
                = ⟨2, [base * 2 ^ 1], .ok r2⟩ := by
              rw [retry_from, if_neg (by omega), h1]
              dsimp only
              rw [htr1]
              simp [hstep2]
            have ht : call_ai_model_with_retry attemptsF 3 base
                = ⟨3, [base * 2 ^ 0, base * 2 ^ 1], .ok r2⟩ := by
              rw [call_ai_model_with_retry, retry_from, if_neg (by omega), h0]
              dsimp only
              rw [htr0]
              simp [hstep1]
            rw [ht]; refine ⟨?_, ?_, ?_, ?_, ?_⟩
            · norm_num
            · norm_num
            · simp [List.range_succ]
            · intro j hj
              have hj01 : j = 0 ∨ j = 1 := by
                have : j + 1 < 3 := by simpa using hj
                omega
              rcases hj01 with hj0 | hj1
              · exact hj0 ▸ ⟨e0, h0, htr0⟩
              · exact hj1 ▸ ⟨e1, h1, htr1⟩
            · exact .inl ⟨r2, by simpa using h2, rfl⟩
          | error e2 =>
            have hstep2 : retry_from attemptsF base 2 1 = ⟨1, [], .error e2⟩ := by
              rw [retry_from, if_neg (by omega), h2]
              dsimp only
              simp
            have hstep1 : retry_from attemptsF base 1 2
                = ⟨2, [base * 2 ^ 1], .error e2⟩ := by
              rw [retry_from, if_neg (by omega), h1]
              dsimp only
              rw [htr1]
              simp [hstep2]
            have ht : call_ai_model_with_retry attemptsF 3 base
                = ⟨3, [base * 2 ^ 0, base * 2 ^ 1], .error e2⟩ := by
              rw [call_ai_model_with_retry, retry_from, if_neg (by omega), h0]
              dsimp only
              rw [htr0]
              simp [hstep1]
            rw [ht]; refine ⟨?_, ?_, ?_, ?_, ?_⟩
            · norm_num
            · norm_num
            · simp [List.range_succ]
            · intro j hj
              have hj01 : j = 0 ∨ j = 1 := by
                have : j + 1 < 3 := by simpa using hj
                omega
              rcases hj01 with hj0 | hj1
              · exact hj0 ▸ ⟨e0, h0, htr0⟩
              · exact hj1 ▸ ⟨e1, h1, htr1⟩
            · exact .inr ⟨e2, by simpa using h2, rfl, .inr rfl⟩

/-- Witness for C6 at a concrete attempt oracle: a first-attempt success
makes exactly one attempt. -/
theorem C6_witness :
    1 ≤ (call_ai_model_with_retry (fun _ => .ok ⟨none, []⟩) 3 1).attempts
  ∧ (call_ai_model_with_retry (fun _ => .ok ⟨none, []⟩) 3 1).attempts ≤ 3 := by
  have h := C6_bounded_transient_retry (fun _ => .ok ⟨none, []⟩) 1
  exact ⟨h.1, h.2.1⟩

/-- C9 counterexample: `update_task` accepts and stores a 5001-character
description — no description-length validation exists in the tool
executor — contradicting the claim that a description longer than 5000
characters is rejected rather than stored. -/
theorem C9_counterexample :
    long_desc.length > 5000
  ∧ update_task c9db "u1" 1 none (some long_desc) none none 9
      = (.taskOk ⟨1, "u1", "Buy milk", some long_desc, false, "medium", 0, 9⟩
           "Task updated successfully",
         [⟨1, "u1", "Buy milk", some long_desc, false, "medium", 0, 9⟩]) := by
  constructor
  · show (List.replicate 5001 'a').length > 5000
    rw [List.length_replicate]
    omega
  · rfl

/-- C9 (amended): the tool executor re-validates the title — missing,
empty/whitespace-only, or longer than 200 characters is rejected with
`INVALID_TITLE` by both `add_task` and `update_task`, leaving the store
unchanged — but it does NOT re-validate the description length: `update_task`
stores a provided description of any length verbatim. -/
theorem C9_title_validated_description_not (db : List Task) (uid : String)
    (hv : validate_user_id uid = true) :
    (∀ title description priority newId now,
      (title.data.isEmpty || (pyStrip title).length == 0 || title.length > 200) = true →
      add_task db uid title description priority newId now
        = (.err ⟨"INVALID_TITLE",
                 "Title is required and must be between 1 and 200 characters"⟩, db))
  ∧ (∀ task_id t description priority completed now,
      verify_user_owns_task db uid task_id = true →
      ((pyStrip t).length == 0 || t.length > 200) = true →
      update_task db uid task_id (some t) description priority completed now
        = (.err ⟨"INVALID_TITLE", "Title must be between 1 and 200 characters"⟩, db))
  ∧ (∀ task_id d now τ,
      verify_user_owns_task db uid task_id = true →
      db.find? (fun t => t.id == task_id) = some τ →
      update_task db uid task_id none (some d) none none now
        = (.taskOk { τ with description := some d, updated_at := now }
             "Task updated successfully",
           db.map (fun t => if t.id == task_id then
             { τ with description := some d, updated_at := now } else t))) := by
  refine ⟨?_, ?_, ?_⟩
  · intro title description priority newId now htitle
    rw [add_task, if_neg (by rw [hv]; simp), if_pos htitle]
  · intro task_id t description priority completed now hown htitle
    obtain ⟨τ, hfind⟩ := find_isSome_of_verify db uid task_id hown
    rw [update_task, if_neg (by rw [hv]; simp), if_neg (by rw [hown]; simp), hfind]
    dsimp only
    rw [if_pos htitle]
  · intro task_id d now τ hown hfind
    rw [update_task, if_neg (by rw [hv]; simp), if_neg (by rw [hown]; simp), hfind]
    dsimp only
    rw [applyTaskUpdate]

/-- Witness for C9 at concrete calls: a whitespace-only title is rejected
by `add_task`, an empty title by `update_task`. -/
theorem C9_witness :
    add_task c9db "u1" "   " none "low" 2 5
      = (.err ⟨"INVALID_TITLE",
               "Title is required and must be between 1 and 200 characters"⟩, c9db)
  ∧ update_task c9db "u1" 1 (some "") none none none 5
      = (.err ⟨"INVALID_TITLE", "Title must be between 1 and 200 characters"⟩, c9db) := by
  have h := C9_title_validated_description_not c9db "u1" (by decide)
  exact ⟨h.1 "   " none "low" 2 5 (by decide),
         h.2.1 1 "" none none none 5 (by decide) (by decide)⟩

/-- C10: `process_command` never touches the confirmation handler
pending store — no confirmation record (hence no confirmation id) is ever
created by a chat request — and a deferred destructive call is recorded
only in the returned response, as a pending entry carrying the
model-supplied parameters verbatim, without the caller identity injected
and with no result. -/
theorem C10_chat_never_creates_confirmations (user_id message : String) (rc : Bool)
    (ctx : Except PyExc (List ModelMsg))
    (model : List ModelMsg → Except PyExc ModelResponse)
    (adapters : String → Params → Except PyExc Params) (g : Globals) :
    (process_command user_id message rc ctx model adapters g).2.pending = g.pending
  ∧ (∀ tc : ToolCallReq, rc = true → is_destructive_operation tc.name = true →
      process_tool_call user_id rc adapters tc
        = (.ok (⟨tc.id, tc.name, tc.args, none, "pending"⟩, true), [])) := by
  constructor
  · have hwrap : ∀ r : Except PyExc ProcessResult × Globals, (except_wrap r).2 = r.2 := by
      intro r
      rcases r with ⟨fst, g2⟩
      cases fst with
      | error e => cases e <;> rfl
      | ok v => rfl
    have hbody : (process_command_body user_id message rc ctx model adapters g).2.pending
        = g.pending := by
      rw [process_command_body.eq_def]
      split
      · rfl
      · split
        · rfl
        · cases ctx with
          | error e => rfl
          | ok context =>
            dsimp only
            cases model (build_messages context message) with
            | error e => rfl
            | ok resp =>
              dsimp only
              rcases hrun : run_tool_calls user_id rc adapters resp.tool_calls with ⟨r, a⟩
              rcases r with e | ⟨calls, fl⟩ <;> rfl
    rw [process_command]
    split
    · rfl
    · rw [hwrap]
      exact hbody
  · intro tc hrc hdest
    have hname : tc.name = "delete_task" := by
      simpa [is_destructive_operation] using hdest
    rw [process_tool_call, if_pos (by rw [hrc, hdest]; rfl), hname]
    rfl

/-- Witness for C10 at a concrete deferred call. -/
theorem C10_witness :
    (process_command "u1" "Delete task 5" true (.ok []) (fun _ => .ok c5resp) c5adapters
        ⟨false, [], c2store⟩).2.pending = c2store
  ∧ process_tool_call "u1" true c5adapters ⟨"call_9", "delete_task", c5args⟩
      = (.ok (⟨"call_9", "delete_task", c5args, none, "pending"⟩, true), []) := by
  have h := C10_chat_never_creates_confirmations "u1" "Delete task 5" true (.ok [])
    (fun _ => .ok c5resp) c5adapters ⟨false, [], c2store⟩
  exact ⟨h.1, h.2 ⟨"call_9", "delete_task", c5args⟩ rfl rfl⟩

end TodoSpec
